import Mathlib

/-!
Shallow embedding of `src/pmon_oled/arduino/display.cpp` (namespace `display`)
and proofs of the specification claims about it.

Modelling conventions:
* `uint8` / `uint16` values are modelled as `ℕ`; wherever a C conversion or
  overflow matters it is made explicit with `% 256` on `ℤ`.
* The C array `uint8 graph_y_points[64]` is a `List ℕ` of length 64; an array
  read `a[i]` is `List.getD a i 0` and a write is `List.set`.  The in-bounds
  side conditions are proved separately (claim C10).
* `PassiveTimer` (header `passive_timer.h`, not present under `src/`) is
  modelled from the spec: a monotonic millisecond elapsed-time reader with a
  restart capability.  A timer is represented by the millisecond timestamp of
  its last restart; `timeMillis` at wall-clock time `now` is `now - start`.
  Functions that read the timer take `now : ℕ` as an explicit argument.
* The message codes live in `display_messages.h`, also not under `src/`; only
  their distinctness and the identity of the `kNone` sentinel matter, so they
  are modelled from the spec as distinct naturals.
* The u8glib drawing surface is modelled as a list of emitted drawing
  primitives (`DrawPrim`).  The picture loop (`firstPage` / `nextPage`) runs
  the page-draw function once per drawing pass; per the comment in the source
  (hardware SPI with 2X buffer) there are 4 drawing passes.
* The C `double` math in `currentMilliAmpsToDisplayY` is modelled over `ℝ`
  (`Real.log` for `log`); the conversion `double → int` truncates toward zero,
  modelled by `truncToInt`.  All quantities proved about lie far (≥ 0.19) from
  rounding boundaries, so the idealized real-valued model agrees with the
  floating-point evaluation.
-/

namespace Display

/-- Capacity of the realtime current graph buffer (`kGraphMaxPoints = 64`). -/
def kGraphMaxPoints : ℕ := 64

/-- The mutable graph-buffer globals of `display.cpp`:
`graph_y_points`, `graph_first_y_index`, `graph_active_y_count`. -/
structure GraphState where
  graph_y_points : List ℕ
  graph_first_y_index : ℕ
  graph_active_y_count : ℕ
deriving DecidableEq, Repr

/-- The graph globals as zero-initialized at C program startup
(static storage duration). -/
def initialGraphState : GraphState :=
  ⟨List.replicate kGraphMaxPoints 0, 0, 0⟩

/-- `clearGraphBuffer()`: resets the first index and the active count; the
backing array contents are left as they are. -/
def clearGraphBuffer (s : GraphState) : GraphState :=
  ⟨s.graph_y_points, 0, 0⟩

/-- `incrementGraphIndex(uint8*)`: increments an index and wraps it to 0 once
it reaches `kGraphMaxPoints`. -/
def incrementGraphIndex (index : ℕ) : ℕ :=
  if index + 1 ≥ kGraphMaxPoints then 0 else index + 1

/-- Truncation of a real number toward zero, the semantics of the C
conversion from `double` to `int`. -/
noncomputable def truncToInt (x : ℝ) : ℤ :=
  if x < 0 then ⌈x⌉ else ⌊x⌋

/-- The top-range clip at the start of `currentMilliAmpsToDisplayY`:
`if (current_milli_amps > 2000) current_milli_amps = 2000;`. -/
def clipCurrent (current_milli_amps : ℕ) : ℕ :=
  if current_milli_amps > 2000 then 2000 else current_milli_amps

/-- The constant `kA = 30` of the sub-logarithmic mapping. -/
def kA : ℕ := 30

/-- The constant `kB = 7` of the sub-logarithmic mapping. -/
def kB : ℕ := 7

/-- The constant `kC = 23` of the sub-logarithmic mapping. -/
def kC : ℕ := 23

/-- The local `scalledValue` of `currentMilliAmpsToDisplayY`:
`const int scalledValue = 0.5f + ((log(current_milli_amps + kA) * kB) - kC);`
computed after the clip, with `log` the natural logarithm on `double`. -/
noncomputable def scalledValue (current_milli_amps : ℕ) : ℤ :=
  truncToInt ((0.5 : ℝ) +
    ((Real.log ((clipCurrent current_milli_amps : ℝ) + (kA : ℝ)) * (kB : ℝ)) - (kC : ℝ)))

/-- `currentMilliAmpsToDisplayY(uint16)`: returns `63 - scalledValue` as a
`uint8` (hence the explicit `% 256` of the C integer conversion). -/
noncomputable def currentMilliAmpsToDisplayY (current_milli_amps : ℕ) : ℕ :=
  ((63 - scalledValue current_milli_amps) % 256).toNat

/-- The array index written by `appendGraphPoint`: the oldest slot when the
buffer is full, otherwise `graph_first_y_index + graph_active_y_count`
reduced by `kGraphMaxPoints` when it overflows the array. -/
def appendWriteIndex (s : GraphState) : ℕ :=
  if s.graph_active_y_count = kGraphMaxPoints then
    s.graph_first_y_index
  else if s.graph_first_y_index + s.graph_active_y_count ≥ kGraphMaxPoints then
    s.graph_first_y_index + s.graph_active_y_count - kGraphMaxPoints
  else
    s.graph_first_y_index + s.graph_active_y_count

/-- The buffer-insertion part of `appendGraphPoint(uint16)`, acting on an
already quantized `y_value`: if the buffer is full it overwrites the oldest
slot and advances `graph_first_y_index`; otherwise it stores at the insertion
index and increments `graph_active_y_count`. -/
def appendGraphPointY (s : GraphState) (y_value : ℕ) : GraphState :=
  if s.graph_active_y_count = kGraphMaxPoints then
    ⟨s.graph_y_points.set s.graph_first_y_index y_value,
     incrementGraphIndex s.graph_first_y_index,
     s.graph_active_y_count⟩
  else
    ⟨s.graph_y_points.set (appendWriteIndex s) y_value,
     s.graph_first_y_index,
     s.graph_active_y_count + 1⟩

/-- `appendGraphPoint(uint16 current_milli_amps)`: quantizes the current to a
screen y coordinate and inserts it into the graph buffer. -/
noncomputable def appendGraphPoint (s : GraphState) (current_milli_amps : ℕ) : GraphState :=
  appendGraphPointY s (currentMilliAmpsToDisplayY current_milli_amps)

/-- Iterating the buffer entries: starting from the oldest index, for
`graph_active_y_count` steps, wrapping modulo `kGraphMaxPoints`. -/
def readGraphBuffer (s : GraphState) : List ℕ :=
  (List.range s.graph_active_y_count).map
    (fun i => s.graph_y_points.getD ((s.graph_first_y_index + i) % kGraphMaxPoints) 0)

/-- The last `n` elements of a list. -/
def lastN (n : ℕ) (l : List ℕ) : List ℕ :=
  l.drop (l.length - n)

/-- The structural invariant of the graph globals: the oldest index is a
valid array index, the count never exceeds the capacity, and the backing
array has exactly `kGraphMaxPoints` slots. -/
def GraphInv (s : GraphState) : Prop :=
  s.graph_first_y_index < kGraphMaxPoints ∧
  s.graph_active_y_count ≤ kGraphMaxPoints ∧
  s.graph_y_points.length = kGraphMaxPoints

instance (s : GraphState) : Decidable (GraphInv s) := by
  unfold GraphInv; infer_instance

/-! ### Display message state (display message codes and `PassiveTimer`) -/

/-- Modelled from the spec: the sentinel message code from
`display_messages.h` (not under `src/`); the spec calls it the
sentinel code "none". Only its identity matters. -/
def kNone : ℕ := 0

/-- Modelled from the spec: the startup splash message code from
`display_messages.h` (not under `src/`). Only its distinctness matters. -/
def kSplashScreen : ℕ := 1

/-- Modelled from the spec: the analysis-restarted message code from
`display_messages.h` (not under `src/`). Only its distinctness matters. -/
def kAnalysisReset : ℕ := 2

/-- The display-message globals of `display.cpp`:
`current_display_message_code`, `current_display_message_min_time_millis`,
and the `PassiveTimer time_in_current_display_message`, the timer being
represented by the wall-clock millisecond of its last restart (modelled from
the spec: monotonic millisecond elapsed-time reader with restart). -/
structure MsgState where
  current_display_message_code : ℕ
  current_display_message_min_time_millis : ℕ
  timer_start_millis : ℕ
deriving DecidableEq, Repr

/-- Modelled from the spec: `PassiveTimer.timeMillis()` read at wall-clock
millisecond `now` for a timer last restarted at `start`. -/
def timeMillis (start now : ℕ) : ℕ := now - start

/-- `isActiveDisplayMessage()`: false when no message is set; true while the
elapsed time is below the minimum display time; otherwise marks the message
as done (code becomes `kNone`) and returns false.  The boolean result is
paired with the updated globals. -/
def isActiveDisplayMessage (s : MsgState) (now : ℕ) : Bool × MsgState :=
  if s.current_display_message_code = kNone then
    (false, s)
  else if timeMillis s.timer_start_millis now < s.current_display_message_min_time_millis then
    (true, s)
  else
    (false, ⟨kNone, s.current_display_message_min_time_millis, s.timer_start_millis⟩)

/-! ### The u8glib drawing surface, modelled as emitted primitives -/

/-- The single font used by the renderer, `u8g_font_8x13`. -/
def u8g_font_8x13 : ℕ := 0

/-- A drawing primitive issued to the u8glib surface. -/
inductive DrawPrim where
  | setFont (font : ℕ)
  | drawStr (x y : ℕ) (text : String)
  | drawLine (x1 y1 x2 y2 : ℕ)
  | drawRFrame (x y w h r : ℕ)
deriving DecidableEq, Repr

/-- Number of picture-loop passes: the source configures hardware SPI with a
2X buffer, "which results in 4 drawing passes instead of the normal 8". -/
def kNumDrawingPasses : ℕ := 4

/-- Left-pads a string with spaces to the given width, as in the
`snprintf` format "%Nd" for a non-negative value. -/
def padLeftTo (width : ℕ) (s : String) : String :=
  String.mk (List.replicate (width - s.length) (Char.ofNat 32)) ++ s

/-- The `snprintf(bfr, _, "%4d", v)` formatting of an unsigned value. -/
def fmt4 (n : ℕ) : String := padLeftTo 4 (toString n)

/-- The `snprintf(bfr, _, "%6d", v)` formatting of an unsigned value. -/
def fmt6 (n : ℕ) : String := padLeftTo 6 (toString n)

/-- `drawCurrentDisplayMessage()`: one picture-loop body of the message
screen.  Always draws the rounded frame; then the text of the splash or
analysis-reset message, or the raw numeric code as fallback. -/
def drawCurrentDisplayMessage (code : ℕ) : List DrawPrim :=
  DrawPrim.setFont u8g_font_8x13 ::
  DrawPrim.drawRFrame 0 0 128 64 5 ::
  (if code = kSplashScreen then
    [DrawPrim.drawStr 22 19 "Power Play",
     DrawPrim.drawStr 30 37 "UNO OLED",
     DrawPrim.drawStr 27 54 "Ver 0.100"]
  else if code = kAnalysisReset then
    [DrawPrim.drawStr 27 26 "Analysis",
     DrawPrim.drawStr 27 45 "Restarted"]
  else
    [DrawPrim.drawStr 0 30 "Message: ",
     DrawPrim.drawStr 65 30 (fmt4 code)])

/-- `renderCurrentDisplayMessage()`: runs the picture loop, drawing the
message screen once per pass.  It does not consult the message-active
state; it always paints. -/
def renderCurrentDisplayMessage (s : MsgState) : List DrawPrim :=
  (List.replicate kNumDrawingPasses
    (drawCurrentDisplayMessage s.current_display_message_code)).flatten

/-- `activateDisplayMessage(uint8, uint16)`: stores the new message info and
restarts the timer, then repaints the display via
`renderCurrentDisplayMessage` unless the new code is `kNone` or equals the
previously stored code.  Returns the new globals and the primitives drawn. -/
def activateDisplayMessage (s : MsgState) (display_message_code min_display_time_millis now : ℕ) :
    MsgState × List DrawPrim :=
  let previous_display_message_code := s.current_display_message_code
  let s2 : MsgState := ⟨display_message_code, min_display_time_millis, now⟩
  if display_message_code = kNone ∨ display_message_code = previous_display_message_code then
    (s2, [])
  else
    (s2, renderCurrentDisplayMessage s2)

/-! ### Graph and summary page drawing -/

/-- The loop body of the graph-curve pass of `drawGraphPage`, iterated once
per remaining sample (`for (uint8 i = 1; i < graph_active_y_count; i++)`).
Arguments: the backing array, the number of remaining iterations, and the
loop variables `index`, `last_x`, `last_y`.  Returns the emitted line
segments together with the final `last_x` and `last_y`. -/
def graphSegmentsLoop (points : List ℕ) : ℕ → ℕ → ℕ → ℕ → List DrawPrim × ℕ × ℕ
  | 0, _, last_x, last_y => ([], last_x, last_y)
  | n + 1, index, last_x, last_y =>
    let index2 := incrementGraphIndex index
    let y := points.getD index2 0
    let x := last_x + 2
    let rest := graphSegmentsLoop points n index2 x y
    (DrawPrim.drawLine last_x last_y x y :: rest.1, rest.2)

/-- The line segments drawn between sample points by the graph-curve pass
(whose loop starts at `i = 1` with `index = graph_first_y_index`,
`last_x = 0`, `last_y = graph_y_points[graph_first_y_index]`). -/
def graphLineSegments (s : GraphState) : List DrawPrim :=
  (graphSegmentsLoop s.graph_y_points (s.graph_active_y_count - 1)
    s.graph_first_y_index 0 (s.graph_y_points.getD s.graph_first_y_index 0)).1

/-- The graph-curve pass of `drawGraphPage` (executed for every drawing
stripe index ≥ 2): the sample line segments followed by the closing
vertical line at `last_x + 1`. -/
def graphCurvePrims (s : GraphState) : List DrawPrim :=
  let r := graphSegmentsLoop s.graph_y_points (s.graph_active_y_count - 1)
    s.graph_first_y_index 0 (s.graph_y_points.getD s.graph_first_y_index 0)
  r.1 ++ [DrawPrim.drawLine (r.2.1 + 1) 63 (r.2.1 + 1) 32]

/-- `drawGraphPage(uint8, const char*, const char*)`: one picture-loop body
of the graph screen, drawing only what belongs to the given stripe. -/
def drawGraphPage (s : GraphState) (drawing_stripe_index : ℕ)
    (current average_current : String) : List DrawPrim :=
  (if drawing_stripe_index = 0 then
    [DrawPrim.setFont u8g_font_8x13,
     DrawPrim.drawStr 0 10 "Current",
     DrawPrim.drawStr 70 10 current]
  else []) ++
  (if drawing_stripe_index = 1 then
    [DrawPrim.setFont u8g_font_8x13,
     DrawPrim.drawStr 0 25 "Average",
     DrawPrim.drawStr 70 25 average_current]
  else []) ++
  (if drawing_stripe_index ≥ 2 then graphCurvePrims s else []) ++
  (if drawing_stripe_index = 3 then [DrawPrim.drawLine 0 63 127 63] else [])

/-- The array indices read by the graph-curve loop of `drawGraphPage`:
starting from `graph_first_y_index`, each iteration reads the
wrapped-incremented index. -/
def readIndicesLoop : ℕ → ℕ → List ℕ
  | 0, _ => []
  | n + 1, index =>
    incrementGraphIndex index :: readIndicesLoop n (incrementGraphIndex index)

/-- All array indices read by `drawGraphPage` from `graph_y_points`: the
unconditional initial read at `graph_first_y_index` (performed even when the
buffer is empty) followed by the loop reads. -/
def graphReadIndices (s : GraphState) : List ℕ :=
  s.graph_first_y_index ::
    readIndicesLoop (s.graph_active_y_count - 1) s.graph_first_y_index

/-- `renderGraphPage(uint16, uint16)`: returns without drawing when a display
message is active (which may lazily expire the message); otherwise formats
the two values and runs the picture loop over the four stripes.  Returns the
updated message globals and the primitives drawn. -/
def renderGraphPage (ms : MsgState) (gs : GraphState)
    (now current_milli_amps average_current_milli_amps : ℕ) : MsgState × List DrawPrim :=
  let r := isActiveDisplayMessage ms now
  if r.1 then
    (r.2, [])
  else
    let bfr1 := padLeftTo 4 (toString current_milli_amps) ++ " ma"
    let bfr2 := padLeftTo 4 (toString average_current_milli_amps) ++ " ma"
    (r.2, ((List.range kNumDrawingPasses).map
      (fun i => drawGraphPage gs i bfr1 bfr2)).flatten)

/-- `drawSummaryPage(...)`: one picture-loop body of the summary screen; the
font is selected on every pass, then only the stripe-relevant row drawn. -/
def drawSummaryPage (drawing_stripe_index : ℕ)
    (current_milli_amps average_current_milli_amps total_charge_mah time_seconds : ℕ) :
    List DrawPrim :=
  DrawPrim.setFont u8g_font_8x13 ::
  ((if drawing_stripe_index = 0 then
    [DrawPrim.drawStr 0 10 "I",
     DrawPrim.drawStr 65 10 (fmt4 current_milli_amps),
     DrawPrim.drawStr 103 10 "ma"]
  else []) ++
  (if drawing_stripe_index = 1 then
    [DrawPrim.drawStr 0 27 "Iavg",
     DrawPrim.drawStr 65 27 (fmt4 average_current_milli_amps),
     DrawPrim.drawStr 103 27 "ma"]
  else []) ++
  (if drawing_stripe_index = 2 then
    [DrawPrim.drawStr 0 44 "Q",
     DrawPrim.drawStr 65 44 (fmt4 total_charge_mah),
     DrawPrim.drawStr 103 44 "mah"]
  else []) ++
  (if drawing_stripe_index = 3 then
    [DrawPrim.drawStr 0 61 "T",
     DrawPrim.drawStr 49 61 (fmt6 time_seconds),
     DrawPrim.drawStr 101 61 "sec"]
  else []))

/-- `renderSummaryPage(...)`: returns without drawing when a display message
is active; otherwise runs the picture loop over the four stripes. -/
def renderSummaryPage (ms : MsgState)
    (now current_milli_amps average_current_milli_amps total_charge_mah time_seconds : ℕ) :
    MsgState × List DrawPrim :=
  let r := isActiveDisplayMessage ms now
  if r.1 then
    (r.2, [])
  else
    (r.2, ((List.range kNumDrawingPasses).map
      (fun i => drawSummaryPage i current_milli_amps average_current_milli_amps
        total_charge_mah time_seconds)).flatten)

/-- `setup()`: clears the message state, restarts its timer, and clears the
graph buffer (the u8glib color-index call touches no modelled state). -/
def setup (gs : GraphState) (now : ℕ) : MsgState × GraphState :=
  (⟨kNone, 0, now⟩, clearGraphBuffer gs)

/-! ### Numerical bounds on the natural logarithm

Rational bounds on `log 30` and `log 2030`, obtained from the decimal bounds
on `e` by raising both sides to a suitable power. -/

lemma log_thirty_lt : Real.log 30 < 7 / 2 := by
  rw [Real.log_lt_iff_lt_exp (by norm_num)]
  have h2 : Real.exp 7 = Real.exp (7 / 2) ^ 2 := by
    rw [← Real.exp_nat_mul]; norm_num
  have hgt : (2.7182818283 : ℝ) ^ 7 < Real.exp 1 ^ 7 :=
    pow_lt_pow_left₀ Real.exp_one_gt_d9 (by norm_num) (by norm_num)
  have he : Real.exp 7 = Real.exp 1 ^ 7 := by
    rw [← Real.exp_nat_mul]; norm_num
  have h : (30 : ℝ) ^ 2 < Real.exp (7 / 2) ^ 2 := by
    rw [← h2, he]
    calc (30 : ℝ) ^ 2 < (2.7182818283 : ℝ) ^ 7 := by norm_num
      _ < Real.exp 1 ^ 7 := hgt
  exact lt_of_pow_lt_pow_left₀ 2 (Real.exp_nonneg _) h

lemma log_thirty_gt : 17 / 5 < Real.log 30 := by
  rw [Real.lt_log_iff_exp_lt (by norm_num)]
  have h2 : Real.exp 17 = Real.exp (17 / 5) ^ 5 := by
    rw [← Real.exp_nat_mul]; norm_num
  have hlt : Real.exp 1 ^ 17 < (2.7182818286 : ℝ) ^ 17 :=
    pow_lt_pow_left₀ Real.exp_one_lt_d9 (Real.exp_nonneg 1) (by norm_num)
  have he : Real.exp 17 = Real.exp 1 ^ 17 := by
    rw [← Real.exp_nat_mul]; norm_num
  have h : Real.exp (17 / 5) ^ 5 < (30 : ℝ) ^ 5 := by
    rw [← h2, he]
    calc Real.exp 1 ^ 17 < (2.7182818286 : ℝ) ^ 17 := hlt
      _ < (30 : ℝ) ^ 5 := by norm_num
  exact lt_of_pow_lt_pow_left₀ 5 (by norm_num) h

lemma log_twothirty_gt : 15 / 2 < Real.log 2030 := by
  rw [Real.lt_log_iff_exp_lt (by norm_num)]
  have h2 : Real.exp 15 = Real.exp (15 / 2) ^ 2 := by
    rw [← Real.exp_nat_mul]; norm_num
  have hlt : Real.exp 1 ^ 15 < (2.7182818286 : ℝ) ^ 15 :=
    pow_lt_pow_left₀ Real.exp_one_lt_d9 (Real.exp_nonneg 1) (by norm_num)
  have he : Real.exp 15 = Real.exp 1 ^ 15 := by
    rw [← Real.exp_nat_mul]; norm_num
  have h : Real.exp (15 / 2) ^ 2 < (2030 : ℝ) ^ 2 := by
    rw [← h2, he]
    calc Real.exp 1 ^ 15 < (2.7182818286 : ℝ) ^ 15 := hlt
      _ < (2030 : ℝ) ^ 2 := by norm_num
  exact lt_of_pow_lt_pow_left₀ 2 (by norm_num) h

lemma log_twothirty_lt : Real.log 2030 < 61 / 8 := by
  rw [Real.log_lt_iff_lt_exp (by norm_num)]
  have h2 : Real.exp 61 = Real.exp (61 / 8) ^ 8 := by
    rw [← Real.exp_nat_mul]; norm_num
  have hgt : (2.7182818283 : ℝ) ^ 61 < Real.exp 1 ^ 61 :=
    pow_lt_pow_left₀ Real.exp_one_gt_d9 (by norm_num) (by norm_num)
  have he : Real.exp 61 = Real.exp 1 ^ 61 := by
    rw [← Real.exp_nat_mul]; norm_num
  have h : (2030 : ℝ) ^ 8 < Real.exp (61 / 8) ^ 8 := by
    rw [← h2, he]
    calc (2030 : ℝ) ^ 8 < (2.7182818283 : ℝ) ^ 61 := by norm_num
      _ < Real.exp 1 ^ 61 := hgt
  exact lt_of_pow_lt_pow_left₀ 8 (Real.exp_nonneg _) h

/-! ### Facts about `clipCurrent`, `scalledValue` and
`currentMilliAmpsToDisplayY` -/

lemma clipCurrent_le (v : ℕ) : clipCurrent v ≤ 2000 := by
  unfold clipCurrent; split <;> omega

lemma clipCurrent_mono {v1 v2 : ℕ} (h : v1 ≤ v2) : clipCurrent v1 ≤ clipCurrent v2 := by
  unfold clipCurrent; split <;> split <;> omega

lemma clipCurrent_of_gt {v : ℕ} (h : 2000 < v) : clipCurrent v = 2000 := by
  unfold clipCurrent; split <;> omega

/-- The real expression inside the `double → int` conversion of
`currentMilliAmpsToDisplayY`, written with numeral constants. -/
noncomputable def scalledArg (v : ℕ) : ℝ :=
  (0.5 : ℝ) + (Real.log ((clipCurrent v : ℝ) + 30) * 7 - 23)

lemma scalledValue_eq_trunc (v : ℕ) : scalledValue v = truncToInt (scalledArg v) := by
  unfold scalledValue scalledArg kA kB kC
  norm_num

lemma log_clip_gt (v : ℕ) : 17 / 5 < Real.log ((clipCurrent v : ℝ) + 30) := by
  refine lt_of_lt_of_le log_thirty_gt (Real.log_le_log (by norm_num) ?_)
  have h : (0 : ℝ) ≤ (clipCurrent v : ℝ) := by positivity
  linarith

lemma log_clip_lt (v : ℕ) : Real.log ((clipCurrent v : ℝ) + 30) < 61 / 8 := by
  refine lt_of_le_of_lt (Real.log_le_log (by positivity) ?_) log_twothirty_lt
  have := clipCurrent_le v
  have hc : (clipCurrent v : ℝ) ≤ 2000 := by exact_mod_cast this
  linarith

lemma scalledArg_pos (v : ℕ) : 0 < scalledArg v := by
  have := log_clip_gt v
  unfold scalledArg
  linarith

lemma scalledValue_eq_floor (v : ℕ) : scalledValue v = ⌊scalledArg v⌋ := by
  rw [scalledValue_eq_trunc]
  unfold truncToInt
  rw [if_neg (not_lt.mpr (scalledArg_pos v).le)]

lemma scalledValue_ge_one (v : ℕ) : 1 ≤ scalledValue v := by
  rw [scalledValue_eq_floor]
  refine Int.le_floor.mpr ?_
  have := log_clip_gt v
  push_cast
  unfold scalledArg
  linarith

lemma scalledValue_le_thirty (v : ℕ) : scalledValue v ≤ 30 := by
  rw [scalledValue_eq_floor]
  have h31 : ⌊scalledArg v⌋ < 31 := by
    refine Int.floor_lt.mpr ?_
    have := log_clip_lt v
    push_cast
    unfold scalledArg
    linarith
  omega

lemma scalledValue_mono {v1 v2 : ℕ} (h : v1 ≤ v2) : scalledValue v1 ≤ scalledValue v2 := by
  rw [scalledValue_eq_floor, scalledValue_eq_floor]
  refine Int.floor_le_floor ?_
  unfold scalledArg
  have hc : (clipCurrent v1 : ℝ) ≤ (clipCurrent v2 : ℝ) := by
    exact_mod_cast clipCurrent_mono h
  have hlog : Real.log ((clipCurrent v1 : ℝ) + 30) ≤ Real.log ((clipCurrent v2 : ℝ) + 30) :=
    Real.log_le_log (by positivity) (by linarith)
  linarith

lemma scalledValue_zero : scalledValue 0 = 1 := by
  rw [scalledValue_eq_floor]
  have h0 : clipCurrent 0 = 0 := by unfold clipCurrent; norm_num
  refine Int.floor_eq_iff.mpr ?_
  unfold scalledArg
  rw [h0]
  constructor
  · have := log_thirty_gt
    push_cast
    linarith
  · have := log_thirty_lt
    push_cast
    linarith

lemma scalledValue_twothousand : scalledValue 2000 = 30 := by
  rw [scalledValue_eq_floor]
  have h0 : clipCurrent 2000 = 2000 := by unfold clipCurrent; norm_num
  refine Int.floor_eq_iff.mpr ?_
  unfold scalledArg
  rw [h0]
  constructor
  · have := log_twothirty_gt
    push_cast
    linarith
  · have := log_twothirty_lt
    push_cast
    linarith

lemma displayY_eq (v : ℕ) : currentMilliAmpsToDisplayY v = (63 - scalledValue v).toNat := by
  unfold currentMilliAmpsToDisplayY
  have h1 := scalledValue_ge_one v
  have h2 := scalledValue_le_thirty v
  rw [Int.emod_eq_of_lt (by omega) (by omega)]

lemma displayY_zero : currentMilliAmpsToDisplayY 0 = 62 := by
  rw [displayY_eq, scalledValue_zero]; rfl

lemma displayY_twothousand : currentMilliAmpsToDisplayY 2000 = 33 := by
  rw [displayY_eq, scalledValue_twothousand]; rfl

lemma displayY_of_gt {v : ℕ} (h : 2000 < v) :
    currentMilliAmpsToDisplayY v = currentMilliAmpsToDisplayY 2000 := by
  unfold currentMilliAmpsToDisplayY scalledValue
  rw [clipCurrent_of_gt h]
  have h0 : clipCurrent 2000 = 2000 := by unfold clipCurrent; norm_num
  rw [h0]

lemma displayY_antitone {v1 v2 : ℕ} (h : v1 ≤ v2) :
    currentMilliAmpsToDisplayY v2 ≤ currentMilliAmpsToDisplayY v1 := by
  rw [displayY_eq, displayY_eq]
  have := scalledValue_mono h
  omega

lemma displayY_bounds (v : ℕ) :
    33 ≤ currentMilliAmpsToDisplayY v ∧ currentMilliAmpsToDisplayY v ≤ 62 := by
  rw [displayY_eq]
  have h1 := scalledValue_ge_one v
  have h2 := scalledValue_le_thirty v
  omega

/-! ### The circular graph buffer and the list of samples it represents -/

/-- The graph globals `s` hold exactly the sample list `l` (oldest first):
the backing array has its 64 slots, the oldest index is in range, the count
equals the length of `l`, and entry `i` of the logical iteration order equals
element `i` of `l`. -/
def Represents (s : GraphState) (l : List ℕ) : Prop :=
  s.graph_y_points.length = kGraphMaxPoints ∧
  s.graph_first_y_index < kGraphMaxPoints ∧
  s.graph_active_y_count = l.length ∧
  l.length ≤ kGraphMaxPoints ∧
  ∀ i, i < l.length →
    s.graph_y_points.getD ((s.graph_first_y_index + i) % kGraphMaxPoints) 0 = l.getD i 0

lemma represents_clear {s : GraphState} (h : s.graph_y_points.length = kGraphMaxPoints) :
    Represents (clearGraphBuffer s) [] := by
  refine ⟨h, by norm_num [clearGraphBuffer, kGraphMaxPoints], rfl, by simp, ?_⟩
  intro i hi
  simp at hi

lemma getD_set_ne {l : List ℕ} {i j : ℕ} (h : i ≠ j) (a : ℕ) :
    (l.set i a).getD j 0 = l.getD j 0 := by
  rw [List.getD_eq_getElem?_getD, List.getD_eq_getElem?_getD, List.getElem?_set_ne h]

lemma getD_set_self {l : List ℕ} {i : ℕ} (h : i < l.length) (a : ℕ) :
    (l.set i a).getD i 0 = a := by
  rw [List.getD_eq_getElem?_getD, List.getElem?_set_self h]
  rfl

lemma represents_append_not_full {s : GraphState} {l : List ℕ} (h : Represents s l)
    (hlt : l.length < kGraphMaxPoints) (y : ℕ) :
    Represents (appendGraphPointY s y) (l ++ [y]) := by
  obtain ⟨p, f, c⟩ := s
  obtain ⟨hlen, hfirst, hcount, hle, helem⟩ := h
  dsimp only at hlen hfirst hcount hle helem
  subst hcount
  unfold Represents appendGraphPointY appendWriteIndex kGraphMaxPoints at *
  have hcne : ¬ (l.length = 64) := by omega
  rw [if_neg hcne, if_neg hcne]
  have hwr : (if f + l.length ≥ 64 then f + l.length - 64 else f + l.length) =
      (f + l.length) % 64 := by
    split <;> omega
  rw [hwr]
  dsimp only
  refine ⟨by simpa using hlen, hfirst, by simp, by simp; omega, ?_⟩
  intro i hi
  simp only [List.length_append, List.length_cons, List.length_nil] at hi
  rcases Nat.lt_or_ge i l.length with hilt | hige
  · have hne : (f + i) % 64 ≠ (f + l.length) % 64 := by omega
    rw [getD_set_ne (fun hx => hne hx.symm) y]
    rw [helem i hilt]
    rw [List.getD_eq_getElem?_getD, List.getD_eq_getElem?_getD,
      List.getElem?_append_left hilt]
  · have hieq : i = l.length := by omega
    subst hieq
    rw [getD_set_self (by omega) y]
    rw [List.getD_eq_getElem?_getD, List.getElem?_append_right (Nat.le_refl _)]
    simp

lemma represents_append_full {s : GraphState} {l : List ℕ} (h : Represents s l)
    (heq : l.length = kGraphMaxPoints) (y : ℕ) :
    Represents (appendGraphPointY s y) (l.tail ++ [y]) := by
  obtain ⟨p, f, c⟩ := s
  obtain ⟨hlen, hfirst, hcount, hle, helem⟩ := h
  dsimp only at hlen hfirst hcount hle helem
  subst hcount
  unfold Represents appendGraphPointY incrementGraphIndex kGraphMaxPoints at *
  rw [if_pos heq]
  have hinc : (if f + 1 ≥ 64 then 0 else f + 1) = (f + 1) % 64 := by
    split <;> omega
  rw [hinc]
  dsimp only
  have htlen : (l.tail ++ [y]).length = 64 := by
    simp only [List.length_append, List.length_tail, List.length_cons, List.length_nil]
    omega
  refine ⟨by simpa using hlen, by omega, by rw [htlen, heq], by rw [htlen], ?_⟩
  intro i hi
  rw [htlen] at hi
  have hmod : ((f + 1) % 64 + i) % 64 = (f + (i + 1)) % 64 := by omega
  rw [hmod]
  rcases Nat.lt_or_ge i 63 with hilt | hige
  · have hne : (f + (i + 1)) % 64 ≠ f := by omega
    rw [getD_set_ne (fun hx => hne hx.symm) y]
    rw [helem (i + 1) (by omega)]
    rw [List.getD_eq_getElem?_getD, List.getD_eq_getElem?_getD,
      List.getElem?_append_left (by simp only [List.length_tail]; omega),
      List.getElem?_tail]
  · have hieq : i = 63 := by omega
    subst hieq
    have hidx : (f + (63 + 1)) % 64 = f := by omega
    rw [hidx, getD_set_self (by omega) y]
    rw [List.getD_eq_getElem?_getD,
      List.getElem?_append_right (by simp only [List.length_tail]; omega)]
    simp only [List.length_tail, heq]
    norm_num

lemma readGraphBuffer_eq {s : GraphState} {l : List ℕ} (h : Represents s l) :
    readGraphBuffer s = l := by
  obtain ⟨hlen, hfirst, hcount, hle, helem⟩ := h
  refine List.ext_getElem (by simp [readGraphBuffer, hcount]) ?_
  intro i h1 h2
  simp only [readGraphBuffer, List.getElem_map, List.getElem_range]
  have hi : i < l.length := h2
  have := helem i hi
  rw [this, List.getD_eq_getElem?_getD, List.getElem?_eq_getElem hi]
  rfl

lemma lastN_of_le {n : ℕ} {l : List ℕ} (h : l.length ≤ n) : lastN n l = l := by
  unfold lastN
  have : l.length - n = 0 := by omega
  rw [this, List.drop_zero]

lemma lastN_cons_of_le {n : ℕ} {a : ℕ} {l : List ℕ} (h : n ≤ l.length) :
    lastN n (a :: l) = lastN n l := by
  unfold lastN
  simp only [List.length_cons]
  have : l.length + 1 - n = (l.length - n) + 1 := by omega
  rw [this, List.drop_succ_cons]

lemma represents_foldl {s : GraphState} {l : List ℕ} (h : Represents s l) (vs : List ℕ) :
    Represents (vs.foldl appendGraphPoint s)
      (lastN kGraphMaxPoints (l ++ vs.map currentMilliAmpsToDisplayY)) := by
  induction vs generalizing s l with
  | nil =>
    simp only [List.foldl_nil, List.map_nil, List.append_nil]
    rw [lastN_of_le h.2.2.2.1]
    exact h
  | cons v vs ih =>
    simp only [List.foldl_cons, List.map_cons]
    rcases Nat.lt_or_ge l.length kGraphMaxPoints with hlt | hge
    · have h2 := represents_append_not_full h hlt (currentMilliAmpsToDisplayY v)
      have h3 := ih h2
      have harr : (l ++ [currentMilliAmpsToDisplayY v]) ++ vs.map currentMilliAmpsToDisplayY =
          l ++ (currentMilliAmpsToDisplayY v :: vs.map currentMilliAmpsToDisplayY) := by
        simp
      rw [harr] at h3
      exact h3
    · have heq : l.length = kGraphMaxPoints := le_antisymm h.2.2.2.1 hge
      have h2 := represents_append_full h heq (currentMilliAmpsToDisplayY v)
      have h3 := ih h2
      have hlne : l ≠ [] := by
        intro hx
        rw [hx] at heq
        simp [kGraphMaxPoints] at heq
      obtain ⟨a, t, hat⟩ := List.exists_cons_of_ne_nil hlne
      have harr : (l.tail ++ [currentMilliAmpsToDisplayY v]) ++ vs.map currentMilliAmpsToDisplayY =
          l.tail ++ (currentMilliAmpsToDisplayY v :: vs.map currentMilliAmpsToDisplayY) := by
        simp
      rw [harr] at h3
      have hlast : lastN kGraphMaxPoints
          (l ++ (currentMilliAmpsToDisplayY v :: vs.map currentMilliAmpsToDisplayY)) =
          lastN kGraphMaxPoints
          (l.tail ++ (currentMilliAmpsToDisplayY v :: vs.map currentMilliAmpsToDisplayY)) := by
        rw [hat]
        simp only [List.tail_cons, List.cons_append]
        refine lastN_cons_of_le ?_
        simp only [List.length_append, List.length_cons]
        have : t.length = kGraphMaxPoints - 1 := by
          rw [hat] at heq
          simp at heq
          omega
        omega
      rw [hlast]
      exact h3

/-! ### Auxiliary facts for the message overlay and drawing claims -/

lemma activate_fst (s : MsgState) (code d now : ℕ) :
    (activateDisplayMessage s code d now).1 = ⟨code, d, now⟩ := by
  unfold activateDisplayMessage
  dsimp only
  split <;> rfl

lemma renderCurrentDisplayMessage_ne_nil (s : MsgState) :
    renderCurrentDisplayMessage s ≠ [] := by
  unfold renderCurrentDisplayMessage kNumDrawingPasses drawCurrentDisplayMessage
  simp [List.replicate]

lemma incrementGraphIndex_lt (i : ℕ) : incrementGraphIndex i < kGraphMaxPoints := by
  unfold incrementGraphIndex kGraphMaxPoints
  split <;> omega

lemma graphInv_append {s : GraphState} (h : GraphInv s) (y : ℕ) :
    GraphInv (appendGraphPointY s y) := by
  obtain ⟨hf, hc, hl⟩ := h
  unfold appendGraphPointY
  split
  · refine ⟨incrementGraphIndex_lt _, hc, ?_⟩
    show (s.graph_y_points.set s.graph_first_y_index y).length = kGraphMaxPoints
    simpa using hl
  · rename_i hne
    refine ⟨hf, ?_, ?_⟩
    · show s.graph_active_y_count + 1 ≤ kGraphMaxPoints
      omega
    · show (s.graph_y_points.set (appendWriteIndex s) y).length = kGraphMaxPoints
      simpa using hl

lemma readIndicesLoop_lt (n : ℕ) : ∀ i : ℕ, ∀ j ∈ readIndicesLoop n i, j < kGraphMaxPoints := by
  induction n with
  | zero =>
    intro i j hj
    simp [readIndicesLoop] at hj
  | succ n ih =>
    intro i j hj
    unfold readIndicesLoop at hj
    rcases List.mem_cons.mp hj with hj2 | hj2
    · exact hj2 ▸ incrementGraphIndex_lt i
    · exact ih _ j hj2

/-! ### The claims -/

/-- C1: for every sequence of `appendGraphPoint` calls after
`clearGraphBuffer`, the graph buffer never holds more than 64 entries, and
iterating its entries from the oldest index for count steps (wrapping modulo
64) yields exactly the quantized values of the last `min 64 totalAppended`
appended samples, in call order (oldest to newest). -/
theorem graphBuffer_keeps_last_min64_samples (s0 : GraphState)
    (h : s0.graph_y_points.length = kGraphMaxPoints) (vs : List ℕ) :
    (vs.foldl appendGraphPoint (clearGraphBuffer s0)).graph_active_y_count ≤
      kGraphMaxPoints ∧
    readGraphBuffer (vs.foldl appendGraphPoint (clearGraphBuffer s0)) =
      lastN (min kGraphMaxPoints vs.length) (vs.map currentMilliAmpsToDisplayY) := by
  have h0 := represents_clear h
  have hrep := represents_foldl h0 vs
  rw [List.nil_append] at hrep
  have hread := readGraphBuffer_eq hrep
  have hlast : lastN kGraphMaxPoints (vs.map currentMilliAmpsToDisplayY) =
      lastN (min kGraphMaxPoints vs.length) (vs.map currentMilliAmpsToDisplayY) := by
    unfold lastN
    rw [List.length_map]
    congr 1
    omega
  refine ⟨?_, by rw [hread, hlast]⟩
  have h1 := hrep.2.2.1
  have h2 := hrep.2.2.2.1
  omega

/-- Witness for C1 at a concrete prior state and sample list. -/
theorem graphBuffer_keeps_last_min64_samples_witness :
    initialGraphState.graph_y_points.length = kGraphMaxPoints ∧
    (([5, 2500].foldl appendGraphPoint (clearGraphBuffer initialGraphState)).graph_active_y_count ≤
      kGraphMaxPoints ∧
    readGraphBuffer ([5, 2500].foldl appendGraphPoint (clearGraphBuffer initialGraphState)) =
      lastN (min kGraphMaxPoints ([5, 2500] : List ℕ).length)
        (([5, 2500] : List ℕ).map currentMilliAmpsToDisplayY)) :=
  ⟨by decide, graphBuffer_keeps_last_min64_samples initialGraphState (by decide) [5, 2500]⟩

/-- C2: after `activateDisplayMessage code d` at millisecond `now0` with
`code ≠ kNone`, every `isActiveDisplayMessage` check whose elapsed time
`now - now0` is strictly below `d` returns true and leaves the state
unchanged (so the same holds for every later check before expiry); every
check with elapsed time at least `d` returns false and resets the message
code to `kNone` (lazy expiry); and when the code is already `kNone` the
check returns false without changing state. -/
theorem messageActive_before_duration (s : MsgState) (code d now0 : ℕ)
    (hc : code ≠ kNone) :
    (∀ now, now - now0 < d →
      isActiveDisplayMessage (activateDisplayMessage s code d now0).1 now =
        (true, (activateDisplayMessage s code d now0).1)) ∧
    (∀ now, d ≤ now - now0 →
      isActiveDisplayMessage (activateDisplayMessage s code d now0).1 now =
        (false, ⟨kNone, d, now0⟩)) ∧
    (∀ t : MsgState, ∀ now, t.current_display_message_code = kNone →
      isActiveDisplayMessage t now = (false, t)) := by
  rw [activate_fst]
  refine ⟨?_, ?_, ?_⟩
  · intro now hnow
    simp [isActiveDisplayMessage, timeMillis, hc, hnow]
  · intro now hnow
    have hlt : ¬ (now - now0 < d) := by omega
    simp [isActiveDisplayMessage, timeMillis, hc, hlt]
  · intro t now ht
    simp [isActiveDisplayMessage, ht]

/-- Witness for C2 at a concrete activation. -/
theorem messageActive_before_duration_witness :
    kSplashScreen ≠ kNone ∧
    ((∀ now, now - 10 < 100 →
      isActiveDisplayMessage (activateDisplayMessage ⟨kNone, 0, 0⟩ kSplashScreen 100 10).1 now =
        (true, (activateDisplayMessage ⟨kNone, 0, 0⟩ kSplashScreen 100 10).1)) ∧
    (∀ now, 100 ≤ now - 10 →
      isActiveDisplayMessage (activateDisplayMessage ⟨kNone, 0, 0⟩ kSplashScreen 100 10).1 now =
        (false, ⟨kNone, 100, 10⟩)) ∧
    (∀ t : MsgState, ∀ now, t.current_display_message_code = kNone →
      isActiveDisplayMessage t now = (false, t))) :=
  ⟨by decide, messageActive_before_duration ⟨kNone, 0, 0⟩ kSplashScreen 100 10 (by decide)⟩

/-- C3: while a display message is active (non-`kNone` code and elapsed time
below its minimum duration), `renderGraphPage` and `renderSummaryPage` return
with no drawing primitives issued (and the message state untouched), while
`renderCurrentDisplayMessage` draws unconditionally: its nonempty output
depends only on the stored message code, not on the duration or timer that
decide activeness. -/
theorem activeMessage_suppresses_rendering (ms : MsgState) (gs : GraphState)
    (now cur avg q t : ℕ)
    (h1 : ms.current_display_message_code ≠ kNone)
    (h2 : now - ms.timer_start_millis < ms.current_display_message_min_time_millis) :
    renderGraphPage ms gs now cur avg = (ms, []) ∧
    renderSummaryPage ms now cur avg q t = (ms, []) ∧
    (∀ ms2 : MsgState,
      ms2.current_display_message_code = ms.current_display_message_code →
      renderCurrentDisplayMessage ms2 = renderCurrentDisplayMessage ms) ∧
    renderCurrentDisplayMessage ms ≠ [] := by
  have hact : isActiveDisplayMessage ms now = (true, ms) := by
    simp [isActiveDisplayMessage, timeMillis, h1, h2]
  refine ⟨?_, ?_, ?_, renderCurrentDisplayMessage_ne_nil ms⟩
  · unfold renderGraphPage
    rw [hact]
    simp
  · unfold renderSummaryPage
    rw [hact]
    simp
  · intro ms2 hcode
    unfold renderCurrentDisplayMessage
    rw [hcode]

/-- Witness for C3 at a concrete active message. -/
theorem activeMessage_suppresses_rendering_witness :
    (⟨kSplashScreen, 100, 0⟩ : MsgState).current_display_message_code ≠ kNone ∧
    (5 - (⟨kSplashScreen, 100, 0⟩ : MsgState).timer_start_millis <
      (⟨kSplashScreen, 100, 0⟩ : MsgState).current_display_message_min_time_millis) ∧
    (renderGraphPage ⟨kSplashScreen, 100, 0⟩ initialGraphState 5 120 80 =
      (⟨kSplashScreen, 100, 0⟩, []) ∧
    renderSummaryPage ⟨kSplashScreen, 100, 0⟩ 5 120 80 10 60 =
      (⟨kSplashScreen, 100, 0⟩, []) ∧
    (∀ ms2 : MsgState,
      ms2.current_display_message_code =
        (⟨kSplashScreen, 100, 0⟩ : MsgState).current_display_message_code →
      renderCurrentDisplayMessage ms2 = renderCurrentDisplayMessage ⟨kSplashScreen, 100, 0⟩) ∧
    renderCurrentDisplayMessage ⟨kSplashScreen, 100, 0⟩ ≠ []) :=
  ⟨by decide, by decide,
    activeMessage_suppresses_rendering ⟨kSplashScreen, 100, 0⟩ initialGraphState
      5 120 80 10 60 (by decide) (by decide)⟩

/-- C4: the current-to-pixel mapping is monotonically non-increasing over
inputs in [0, 2000], and constant for all inputs above 2000, where it equals
its value at 2000. -/
theorem currentMap_antitone_and_clamped (v1 v2 w : ℕ)
    (h12 : v1 ≤ v2) (h2 : v2 ≤ 2000) (hw : 2000 < w) :
    currentMilliAmpsToDisplayY v2 ≤ currentMilliAmpsToDisplayY v1 ∧
    currentMilliAmpsToDisplayY w = currentMilliAmpsToDisplayY 2000 :=
  ⟨displayY_antitone h12, displayY_of_gt hw⟩

/-- Witness for C4 at concrete inputs 3 ≤ 5 ≤ 2000 < 2500. -/
theorem currentMap_antitone_and_clamped_witness :
    (3 : ℕ) ≤ 5 ∧ (5 : ℕ) ≤ 2000 ∧ (2000 : ℕ) < 2500 ∧
    (currentMilliAmpsToDisplayY 5 ≤ currentMilliAmpsToDisplayY 3 ∧
     currentMilliAmpsToDisplayY 2500 = currentMilliAmpsToDisplayY 2000) :=
  ⟨by decide, by decide, by decide,
    currentMap_antitone_and_clamped 3 5 2500 (by decide) (by decide) (by decide)⟩

/-- C5 (code evaluated at the failing inputs): the mapping sends 0 to pixel
row 62, not to the bottom row 63 of the plot band, and sends 2000 to row 33,
not to the top row 32, while 5000 does map to the same output as 2000.  The
comment in the source documents the intent "Maps [0..2000] to [0..31]" and
"[63..32]", which the chosen constants miss by one on both ends. -/
theorem currentMap_endpoint_values :
    currentMilliAmpsToDisplayY 0 = 62 ∧ currentMilliAmpsToDisplayY 0 ≠ 63 ∧
    currentMilliAmpsToDisplayY 2000 = 33 ∧ currentMilliAmpsToDisplayY 2000 ≠ 32 ∧
    currentMilliAmpsToDisplayY 5000 = currentMilliAmpsToDisplayY 2000 := by
  refine ⟨displayY_zero, ?_, displayY_twothousand, ?_, displayY_of_gt (by norm_num)⟩
  · rw [displayY_zero]; omega
  · rw [displayY_twothousand]; omega

/-- C6: for every input value, the output of the mapping lies within the
bottom-half pixel band [32, 63] of the display (the actual range is the
slightly smaller [33, 62]). -/
theorem currentMap_output_in_band (v : ℕ) :
    32 ≤ currentMilliAmpsToDisplayY v ∧ currentMilliAmpsToDisplayY v ≤ 63 := by
  have h := displayY_bounds v
  omega

/-- C7 counterexample: activating with the `kNone` code from an active
splash-screen state does change the message state (it clears the code,
stores the new minimum duration and restarts the timer), refuting "never
changes the message state". -/
theorem activateNone_changes_state_counterexample :
    (activateDisplayMessage ⟨kSplashScreen, 100, 0⟩ kNone 5 3).1 ≠
      ⟨kSplashScreen, 100, 0⟩ := by
  decide

/-- C7 amended: calling `activateDisplayMessage` with the `kNone` code never
triggers a redraw, but it does update the message state: the stored code
becomes `kNone` (clearing any active message), the minimum duration is set
to the given value, and the elapsed-time timer is restarted. -/
theorem activateNone_no_redraw (s : MsgState) (d now : ℕ) :
    activateDisplayMessage s kNone d now = (⟨kNone, d, now⟩, []) := by
  unfold activateDisplayMessage
  rw [if_pos (Or.inl rfl)]

/-- C8: re-activating the immediately preceding non-`kNone` code issues no
second overlay redraw, activating a different non-`kNone` code does redraw,
and in general a call redraws exactly when the new code is not `kNone` and
differs from the code stored immediately before the call. -/
theorem activate_redraw_policy (s : MsgState) (codeA codeB dA dA2 dB n0 n1 n2 : ℕ)
    (hA : codeA ≠ kNone) (hB : codeB ≠ kNone) (hBA : codeB ≠ codeA) :
    (activateDisplayMessage (activateDisplayMessage s codeA dA n0).1 codeA dA2 n1).2 = [] ∧
    (activateDisplayMessage
      (activateDisplayMessage (activateDisplayMessage s codeA dA n0).1 codeA dA2 n1).1
      codeB dB n2).2 ≠ [] ∧
    (∀ c d n, (activateDisplayMessage s c d n).2 ≠ [] ↔
      (c ≠ kNone ∧ c ≠ s.current_display_message_code)) := by
  rw [activate_fst, activate_fst]
  refine ⟨?_, ?_, ?_⟩
  · unfold activateDisplayMessage
    rw [if_pos (Or.inr rfl)]
  · unfold activateDisplayMessage
    rw [if_neg ?_]
    · exact renderCurrentDisplayMessage_ne_nil _
    · intro hor
      rcases hor with hx | hx
      · exact hB hx
      · exact hBA hx
  · intro c d n
    unfold activateDisplayMessage
    by_cases hor : c = kNone ∨ c = s.current_display_message_code
    · rw [if_pos hor]
      simp only [ne_eq, not_true_eq_false, false_iff]
      intro hand
      rcases hor with hx | hx
      · exact hand.1 hx
      · exact hand.2 hx
    · rw [if_neg hor]
      push_neg at hor
      simp only [ne_eq]
      constructor
      · intro _
        exact hor
      · intro _
        exact renderCurrentDisplayMessage_ne_nil _

/-- Witness for C8 at concrete codes: splash twice, then analysis-reset. -/
theorem activate_redraw_policy_witness :
    kSplashScreen ≠ kNone ∧ kAnalysisReset ≠ kNone ∧ kAnalysisReset ≠ kSplashScreen ∧
    ((activateDisplayMessage
        (activateDisplayMessage ⟨kNone, 0, 0⟩ kSplashScreen 100 1).1 kSplashScreen 100 2).2 = [] ∧
    (activateDisplayMessage
      (activateDisplayMessage
        (activateDisplayMessage ⟨kNone, 0, 0⟩ kSplashScreen 100 1).1 kSplashScreen 100 2).1
      kAnalysisReset 100 3).2 ≠ [] ∧
    (∀ c d n, (activateDisplayMessage ⟨kNone, 0, 0⟩ c d n).2 ≠ [] ↔
      (c ≠ kNone ∧ c ≠ (⟨kNone, 0, 0⟩ : MsgState).current_display_message_code))) :=
  ⟨by decide, by decide, by decide,
    activate_redraw_policy ⟨kNone, 0, 0⟩ kSplashScreen kAnalysisReset 100 100 100 1 2 3
      (by decide) (by decide) (by decide)⟩

/-- C9: when the graph buffer holds 0 or 1 points, the sample-segment loop of
the graph line-drawing pass performs zero iterations and emits no segments;
the pass draws only the closing vertical line (at x = 1) and, on the last
stripe, the baseline rule. -/
theorem fewPoints_draw_no_segments (gs : GraphState) (cur avg : String)
    (h : gs.graph_active_y_count ≤ 1) :
    graphLineSegments gs = [] ∧
    drawGraphPage gs 2 cur avg = [DrawPrim.drawLine 1 63 1 32] ∧
    drawGraphPage gs 3 cur avg =
      [DrawPrim.drawLine 1 63 1 32, DrawPrim.drawLine 0 63 127 63] := by
  have hc : gs.graph_active_y_count - 1 = 0 := by omega
  have hcurve : graphCurvePrims gs = [DrawPrim.drawLine 1 63 1 32] := by
    unfold graphCurvePrims
    rw [hc]
    rfl
  refine ⟨?_, ?_, ?_⟩
  · unfold graphLineSegments
    rw [hc]
    rfl
  · unfold drawGraphPage
    rw [hcurve]
    rfl
  · unfold drawGraphPage
    rw [hcurve]
    rfl

/-- Witness for C9 on the cleared buffer. -/
theorem fewPoints_draw_no_segments_witness :
    (clearGraphBuffer initialGraphState).graph_active_y_count ≤ 1 ∧
    (graphLineSegments (clearGraphBuffer initialGraphState) = [] ∧
    drawGraphPage (clearGraphBuffer initialGraphState) 2 "a" "b" =
      [DrawPrim.drawLine 1 63 1 32] ∧
    drawGraphPage (clearGraphBuffer initialGraphState) 3 "a" "b" =
      [DrawPrim.drawLine 1 63 1 32, DrawPrim.drawLine 0 63 127 63]) :=
  ⟨by decide, fewPoints_draw_no_segments (clearGraphBuffer initialGraphState) "a" "b" (by decide)⟩

/-- C10: the invariant (oldest index < 64, count ≤ 64, 64 array slots) holds
after `setup` / `clearGraphBuffer` and is preserved by every
`appendGraphPoint`; under it, the index written by `appendGraphPoint` and
every index read by `drawGraphPage` — including the read at
`graph_first_y_index` performed when the buffer is empty — lie in [0, 63]. -/
theorem graph_indices_in_bounds (s : GraphState) (v now : ℕ) (h : GraphInv s) :
    GraphInv (clearGraphBuffer s) ∧
    GraphInv ((setup s now).2) ∧
    GraphInv (appendGraphPoint s v) ∧
    appendWriteIndex s < kGraphMaxPoints ∧
    (∀ i ∈ graphReadIndices s, i < kGraphMaxPoints) ∧
    s.graph_first_y_index ∈ graphReadIndices s := by
  obtain ⟨hf, hc, hl⟩ := h
  have hclear : GraphInv (clearGraphBuffer s) :=
    ⟨by norm_num [clearGraphBuffer, kGraphMaxPoints],
     by norm_num [clearGraphBuffer, kGraphMaxPoints], hl⟩
  refine ⟨hclear, hclear, graphInv_append ⟨hf, hc, hl⟩ _, ?_, ?_, ?_⟩
  · unfold appendWriteIndex
    split
    · exact hf
    · unfold kGraphMaxPoints at *
      split <;> omega
  · intro i hi
    unfold graphReadIndices at hi
    rcases List.mem_cons.mp hi with hi2 | hi2
    · exact hi2 ▸ hf
    · exact readIndicesLoop_lt _ _ i hi2
  · unfold graphReadIndices
    exact List.mem_cons_self _ _

/-- Witness for C10 on the zero-initialized state. -/
theorem graph_indices_in_bounds_witness :
    GraphInv initialGraphState ∧
    (GraphInv (clearGraphBuffer initialGraphState) ∧
    GraphInv ((setup initialGraphState 0).2) ∧
    GraphInv (appendGraphPoint initialGraphState 7) ∧
    appendWriteIndex initialGraphState < kGraphMaxPoints ∧
    (∀ i ∈ graphReadIndices initialGraphState, i < kGraphMaxPoints) ∧
    initialGraphState.graph_first_y_index ∈ graphReadIndices initialGraphState) :=
  ⟨by decide, graph_indices_in_bounds initialGraphState 7 0 (by decide)⟩

end Display
